import Mathlib

/-!
Shallow embedding of the request cache & execution layer of the
Forward Horizon repository:

* `PerformanceOptimizer` (src/unnamed/part_000): an in-memory TTL cache
  (`setCache` / `getCache` / `clearCache`, with `cleanupCache` and
  `evictOldest` as internal helpers) over a JavaScript `Map`, modelled as
  an insertion-ordered association list.
* `ApiClient` (src/api/submit-form.js, second document): request keying,
  GET-cache lookup, request de-duplication through `requestQueue`, and the
  retry/backoff loop of `executeRequest`.

Machine conventions: JavaScript timestamps and durations are `Nat`
milliseconds; `Date.now() - item.timestamp` is truncated `Nat`
subtraction (timestamps never exceed the current time in the scenarios
considered, and the truncated result agrees with JavaScript on the
expiry comparison).  JavaScript numbers inside request bodies are
modelled as integers; floating point is not needed by any claim.
-/

mutual

/-- JavaScript values as they appear in request bodies and cached
response payloads.  Objects keep their fields in insertion order, which
is the order `JSON.stringify` serializes them in (for non-numeric string
keys, the only kind appearing in this repository). -/
inductive JSValue where
  | undef
  | null
  | bool (b : Bool)
  | num (n : Int)
  | str (s : String)
  | obj (fields : JSFields)
  | arr (elems : JSElems)

inductive JSFields where
  | nil
  | cons (key : String) (value : JSValue) (rest : JSFields)

inductive JSElems where
  | nil
  | cons (value : JSValue) (rest : JSElems)

end

/-- JavaScript truthiness, as used by `if (cached)` in `ApiClient.request`
and by `body || {}` / `ttl || this.config.ttl`.  (`NaN` is not modelled;
numbers are integral.) -/
def JSValue.truthy : JSValue → Bool
  | .undef => false
  | .null => false
  | .bool b => b
  | .num n => decide (n ≠ 0)
  | .str s => decide (s ≠ "")
  | .obj _ => true
  | .arr _ => true

/-- The JavaScript `a || b` idiom: `a` when truthy, otherwise `b`. -/
def jsOr (a b : JSValue) : JSValue :=
  if a.truthy then a else b

/-- Escaping applied by `JSON.stringify` to string data; quotation marks
and backslashes are the characters relevant here (control characters do
not occur in this repository's keys or bodies and are not modelled). -/
def jsonEscape (s : String) : String :=
  String.mk (s.data.foldr
    (fun c acc =>
      if c = '\\' then '\\' :: '\\' :: acc
      else if c = '"' then '\\' :: '"' :: acc
      else c :: acc) [])

mutual

/-- `JSON.stringify`.  Returns `none` exactly when JavaScript returns the
value `undefined` (top-level `undefined`); object fields whose value is
`undefined` are skipped, and `undefined` array elements serialize as
`null`, as in JavaScript. -/
def stringifyVal : JSValue → Option String
  | .undef => none
  | .null => some "null"
  | .bool true => some "true"
  | .bool false => some "false"
  | .num n => some (toString n)
  | .str s => some ("\"" ++ jsonEscape s ++ "\"")
  | .obj fs => some ("\x7b" ++ stringifyFields fs ++ "\x7d")
  | .arr es => some ("[" ++ stringifyElems es ++ "]")

def stringifyFields : JSFields → String
  | .nil => ""
  | .cons k v rest =>
    match stringifyVal v with
    | none => stringifyFields rest
    | some s =>
      let piece := "\"" ++ jsonEscape k ++ "\":" ++ s
      match rest with
      | .nil => piece
      | _ => match stringifyFields rest with
             | "" => piece
             | tail => piece ++ "," ++ tail

def stringifyElems : JSElems → String
  | .nil => ""
  | .cons v rest =>
    let piece := match stringifyVal v with
                 | none => "null"
                 | some s => s
    match rest with
    | .nil => piece
    | _ => piece ++ "," ++ stringifyElems rest

end

deriving instance DecidableEq for JSValue

example : stringifyVal (.obj .nil) = some "\x7b\x7d" := by decide

example :
    stringifyVal (.obj (.cons "a" (.num 1) (.cons "b" (.num 2) .nil)))
      = some "\x7b\"a\":1,\"b\":2\x7d" := by decide

/-! ## PerformanceOptimizer cache (src/unnamed/part_000, lines 18-98) -/

/-- One entry of `this.cache`: `{ data, timestamp, ttl }` as stored by
`setCache`.  `timestamp` is the `Date.now()` of the store, `ttl` the
entry's time-to-live in milliseconds. -/
structure CacheItem where
  data : JSValue
  timestamp : Nat
  ttl : Nat
deriving DecidableEq

/-- `CacheConfig` (part_000 lines 3-7).  The field `keyPref` models the
source's `keyPrefix` configuration entry. -/
structure CacheConfig where
  maxSize : Nat
  ttl : Nat
  keyPref : String
deriving DecidableEq

/-- The singleton's configuration (part_000 lines 22-26):
`maxSize: 100, ttl: 5 * 60 * 1000, keyPrefix: 'fh_'`. -/
def defaultConfig : CacheConfig :=
  { maxSize := 100, ttl := 5 * 60 * 1000, keyPref := "fh_" }

/-- `this.cache : Map<string, {data, timestamp, ttl}>`, modelled as an
insertion-ordered association list (JavaScript `Map` iterates in
insertion order). -/
abbrev Cache := List (String × CacheItem)

/-- `Map.get`: the value stored under a key, if present. -/
def mapGet : Cache → String → Option CacheItem
  | [], _ => none
  | (k', v) :: rest, k => if k' = k then some v else mapGet rest k

/-- `Map.set`: replace in place when the key is present (keeping its
position in the iteration order), otherwise append at the end. -/
def mapSet (m : Cache) (k : String) (v : CacheItem) : Cache :=
  if m.any (fun p => p.1 == k) then
    m.map (fun p => if p.1 = k then (k, v) else p)
  else
    m ++ [(k, v)]

/-- `Map.delete`: remove the entry stored under a key. -/
def mapDelete (m : Cache) (k : String) : Cache :=
  m.filter (fun p => decide (p.1 ≠ k))

/-- `cleanupCache` (part_000 lines 75-82): purge every entry with
`now - item.timestamp > item.ttl`. -/
def cleanupCache (now : Nat) (m : Cache) : Cache :=
  m.filter (fun p => decide (now - p.2.timestamp ≤ p.2.ttl))

/-- The loop of `evictOldest` (part_000 lines 84-98): fold over the
entries in iteration order, tracking `(oldestKey, oldestTime)`,
starting from `(null, Date.now())`, updating whenever
`item.timestamp < oldestTime` (strictly). -/
def scanOldest (m : Cache) (acc : Option String × Nat) : Option String × Nat :=
  m.foldl
    (fun acc p => if p.2.timestamp < acc.2 then (some p.1, p.2.timestamp) else acc)
    acc

/-- `evictOldest` (part_000 lines 84-98): delete the key found by the
scan, if any.  Note the scan starts from `Date.now()` with a strict
comparison, so an entry stored at the current instant is never selected. -/
def evictOldest (now : Nat) (m : Cache) : Cache :=
  match (scanOldest m (none, now)).1 with
  | some k => mapDelete m k
  | none => m

/-- `setCache(key, data, ttl?)` (part_000 lines 36-54): prepend the
configured key prefix, default a falsy `ttl` (absent or `0`) to the
configured TTL, clean up expired entries, evict when
`size >= maxSize`, then store `{data, timestamp: now, ttl}`. -/
def setCache (cfg : CacheConfig) (m : Cache) (now : Nat) (key : String)
    (data : JSValue) (ttl : Option Nat) : Cache :=
  let cacheKey := cfg.keyPref ++ key
  let cacheTTL := match ttl with
    | some t => if t = 0 then cfg.ttl else t
    | none => cfg.ttl
  let m1 := cleanupCache now m
  let m2 := if cfg.maxSize ≤ m1.length then evictOldest now m1 else m1
  mapSet m2 cacheKey { data := data, timestamp := now, ttl := cacheTTL }

/-- `getCache(key)` (part_000 lines 56-69): returns the JavaScript value
produced by the lookup (`null` for a missing or expired key — the same
`null` a stored `null` payload yields) together with the cache after the
lookup's purge side effect. -/
def getCache (cfg : CacheConfig) (m : Cache) (now : Nat) (key : String) :
    JSValue × Cache :=
  let cacheKey := cfg.keyPref ++ key
  match mapGet m cacheKey with
  | none => (JSValue.null, m)
  | some item =>
    if item.ttl < now - item.timestamp then (JSValue.null, mapDelete m cacheKey)
    else (item.data, m)

/-- `clearCache()` (part_000 lines 71-73): `this.cache.clear()`. -/
def clearCache (_m : Cache) : Cache := []

example :
    getCache defaultConfig
      (setCache defaultConfig [] 1000 "k" (JSValue.num 7) (some 50)) 1050 "k"
      = (JSValue.num 7,
         [("fh_k", { data := JSValue.num 7, timestamp := 1000, ttl := 50 })]) := by
  decide

example :
    (getCache defaultConfig
      (setCache defaultConfig [] 1000 "k" (JSValue.num 7) (some 50)) 1051 "k").1
      = JSValue.null := by
  decide

/-! ## ApiClient (src/api/submit-form.js, second document, lines 59-191) -/

/-- Substring test on character lists: JavaScript
`String.prototype.includes`. -/
def chStarts : List Char → List Char → Bool
  | [], _ => true
  | _ :: _, [] => false
  | a :: as, b :: bs => a == b && chStarts as bs

/-- Scan every suffix of the haystack for the needle. -/
def chIncludes (sub : List Char) : List Char → Bool
  | [] => chStarts sub []
  | c :: cs => chStarts sub (c :: cs) || chIncludes sub cs

/-- `haystack.includes(needle)` — used by the retry loop's
`error.message.includes('HTTP 4')` check. -/
def strIncludes (sub s : String) : Bool :=
  chIncludes sub.data s.data

example : strIncludes "HTTP 4" "HTTP 404: Not Found" = true := by decide

example : strIncludes "HTTP 4" "HTTP 503: Service Unavailable" = false := by decide

/-- Outcome of one `fetch` attempt, as observed by `executeRequest`:
a parsed successful payload (`response.ok`), a non-ok HTTP response
(which the code converts into
`new Error('HTTP ' + status + ': ' + statusText)`), or a rejection of
`fetch` itself (network failure, or the abort fired by the attempt's
timeout). -/
inductive TransportResult where
  | success (data : JSValue)
  | httpError (status : Nat) (statusText : String)
  | networkError (msg : String)
deriving DecidableEq

/-- The error value held in `lastError` / thrown to the caller. -/
inductive ReqError where
  | http (status : Nat) (statusText : String)
  | network (msg : String)
deriving DecidableEq

/-- `error.message` as the retry loop inspects it. -/
def ReqError.message : ReqError → String
  | .http s tx => "HTTP " ++ toString s ++ ": " ++ tx
  | .network m => m

/-- The error caught for a failed attempt. -/
def outcomeErr : TransportResult → ReqError
  | .httpError s tx => ReqError.http s tx
  | .networkError m => ReqError.network m
  | .success _ => ReqError.network ""

deriving instance DecidableEq for Except

/-- Result of the retry loop: the settled value, the number of
underlying transport invocations, and the inter-attempt backoff delays
(milliseconds), in order. -/
abbrev RetryRes := Except ReqError JSValue × Nat × List Nat

/-- The `for (attempt = 1; attempt <= retries; attempt++)` loop of
`executeRequest` (submit-form.js lines 148-190), driven by a transport
oracle giving the outcome of each attempt (1-based).  `fuel` counts the
remaining loop iterations (`retries + 1 - attempt`); on a failed attempt
the error is recorded, a 4xx message (`includes('HTTP 4')`) breaks out
of the loop immediately, and otherwise, when `attempt < retries`, the
loop sleeps `2 ^ attempt * 1000` milliseconds before the next attempt.
Falling off the loop throws the last recorded error (`throw lastError!`;
with `retries = 0` JavaScript would throw `undefined`, modelled as a
network error reading `"undefined"`). -/
def retryAux (t : Nat → TransportResult) (retries : Nat) :
    Nat → Nat → Option ReqError → RetryRes
  | 0, _, le => (Except.error (le.getD (ReqError.network "undefined")), 0, [])
  | fuel + 1, attempt, le =>
    if retries < attempt then
      (Except.error (le.getD (ReqError.network "undefined")), 0, [])
    else
      match t attempt with
      | .success d => (Except.ok d, 1, [])
      | o =>
        (fun e =>
          if strIncludes "HTTP 4" (ReqError.message e) then
            (Except.error e, 1, [])
          else if attempt < retries then
            (fun r => (r.1, r.2.1 + 1, (2 ^ attempt * 1000) :: r.2.2))
              (retryAux t retries fuel (attempt + 1) (some e))
          else
            (Except.error e, 1, []))
        (outcomeErr o)

/-- `executeRequest`'s attempt loop, from attempt 1 with no error yet. -/
def runAttempts (t : Nat → TransportResult) (retries : Nat) : RetryRes :=
  retryAux t retries retries 1 none

example :
    runAttempts (fun _ => .httpError 404 "Not Found") 3
      = (Except.error (ReqError.http 404 "Not Found"), 1, []) := by decide

example :
    runAttempts
      (fun n => if n ≤ 2 then .httpError 503 "Service Unavailable"
                else .success (JSValue.num 1)) 3
      = (Except.ok (JSValue.num 1), 3, [2000, 4000]) := by decide

example :
    runAttempts (fun _ => .networkError "Failed to fetch") 3
      = (Except.error (ReqError.network "Failed to fetch"), 3, [2000, 4000]) := by
  decide

/-- The `JSON.stringify(body || {})` component of the request key.
`body || {}` is never `undefined`, so the serialization is always a
string; the `getD` default is unreachable. -/
def stringifyBody (body : JSValue) : String :=
  (stringifyVal (jsOr body (JSValue.obj .nil))).getD "undefined"

/-- The derived request key (submit-form.js lines 98-99):
`method + '-' + baseURL + endpoint + '-' + JSON.stringify(body || {})`.
The grouping of the appends differs from the template literal only up to
associativity of string concatenation. -/
def requestKeyStr (baseURL endpoint method : String) (body : JSValue) : String :=
  (method ++ "-" ++ (baseURL ++ endpoint) ++ "-") ++ stringifyBody body

example : requestKeyStr "/api" "/residents" "GET" JSValue.undef
    = "GET-/api/residents-\x7b\x7d" := by decide

/-- The key `executeRequest` actually stores a successful GET response
under (submit-form.js line 170): `performanceOptimizer.setCache(url, ...)`
passes the bare `url`, not the derived request key. -/
def storeKeyStr (baseURL endpoint : String) : String :=
  baseURL ++ endpoint

/-- Outcome of running one `ApiClient.request` call from start to
settlement with no interleaved activity: the settled result, the number
of underlying transport invocations, and the cache afterwards. -/
structure RunOutcome where
  result : Except ReqError JSValue
  calls : Nat
  cache : Cache
deriving DecidableEq

/-- The network part of `request`: run `executeRequest`'s attempt loop;
on success of a cacheable GET, store the payload — under the bare `url`,
as submit-form.js line 170 does. -/
def runNetwork (cfg : CacheConfig) (cache : Cache) (now : Nat)
    (baseURL endpoint method : String) (cacheEnabled : Bool) (cacheTTL : Nat)
    (retries : Nat) (t : Nat → TransportResult) : RunOutcome :=
  let r := runAttempts t retries
  match r.1 with
  | Except.ok d =>
    if method == "GET" && cacheEnabled then
      { result := Except.ok d, calls := r.2.1,
        cache := setCache cfg cache now (storeKeyStr baseURL endpoint) d (some cacheTTL) }
    else
      { result := Except.ok d, calls := r.2.1, cache := cache }
  | Except.error e => { result := Except.error e, calls := r.2.1, cache := cache }

/-- One complete, uninterleaved `ApiClient.request` call
(submit-form.js lines 82-191): derive the key, serve a truthy cached
value for a cacheable GET without touching the network, and otherwise
run the attempt loop (the pending-queue entry is created and then
removed in `finally`, leaving no trace in this sequential run). -/
def runRequestOnce (cfg : CacheConfig) (cache : Cache) (now : Nat)
    (baseURL endpoint method : String) (body : JSValue) (cacheEnabled : Bool)
    (cacheTTL : Nat) (retries : Nat) (t : Nat → TransportResult) : RunOutcome :=
  let key := requestKeyStr baseURL endpoint method body
  if method == "GET" && cacheEnabled then
    let r := getCache cfg cache now key
    if r.1.truthy then { result := Except.ok r.1, calls := 0, cache := r.2 }
    else runNetwork cfg r.2 now baseURL endpoint method cacheEnabled cacheTTL retries t
  else runNetwork cfg cache now baseURL endpoint method cacheEnabled cacheTTL retries t

/-! ## Concurrent arrivals at `request` (submit-form.js lines 101-137)

JavaScript is single-threaded and the stretch of `request` from the
cache check to `requestQueue.set` contains no `await`, so each arriving
call observes and updates the queue atomically.  A call that finds a
`PendingRequest` under its key awaits that same promise; otherwise it
registers a new pending promise (identified here by a fresh call id) and
issues the underlying call.  The queue entry is only removed when the
underlying call settles, so arrivals while it is in flight all see it. -/

/-- How one arriving `request` call proceeds. -/
inductive Arrival where
  | fromCache (v : JSValue)
  | joined (callId : Nat)
  | started (callId : Nat)
deriving DecidableEq

/-- Client state visible to arriving calls: the optimizer cache, the
`requestQueue` (key to pending call id, in insertion order), the next
fresh call id, and how many underlying calls have been issued. -/
structure ApiState where
  cache : Cache
  queue : List (String × Nat)
  nextCallId : Nat
  transportCalls : Nat
deriving DecidableEq

/-- A fresh `ApiClient` next to a fresh `PerformanceOptimizer`. -/
def initApiState : ApiState :=
  { cache := [], queue := [], nextCallId := 0, transportCalls := 0 }

/-- `this.requestQueue.get(cacheKey)`. -/
def queueLookup : List (String × Nat) → String → Option Nat
  | [], _ => none
  | (k', i) :: rest, k => if k' = k then some i else queueLookup rest k

/-- Lines 110-129: join the pending request under this key if one
exists, otherwise register a new one and issue the underlying call. -/
def joinOrStart (st : ApiState) (key : String) : ApiState × Arrival :=
  match queueLookup st.queue key with
  | some i => (st, Arrival.joined i)
  | none =>
    ({ st with
        queue := st.queue ++ [(key, st.nextCallId)],
        nextCallId := st.nextCallId + 1,
        transportCalls := st.transportCalls + 1 },
     Arrival.started st.nextCallId)

/-- One call arriving at `request` (lines 98-129): derive the key; for a
cacheable GET consult the cache (with its purge side effect) and return
a truthy hit immediately; otherwise de-duplicate against the queue. -/
def requestArrive (cfg : CacheConfig) (st : ApiState) (now : Nat)
    (baseURL endpoint method : String) (body : JSValue) (cacheEnabled : Bool) :
    ApiState × Arrival :=
  let key := requestKeyStr baseURL endpoint method body
  if method == "GET" && cacheEnabled then
    let r := getCache cfg st.cache now key
    if r.1.truthy then ({ st with cache := r.2 }, Arrival.fromCache r.1)
    else joinOrStart { st with cache := r.2 } key
  else joinOrStart st key

/-- What a caller eventually observes: a cache hit resolves to the
cached value; a joined or started call resolves to whatever the shared
pending promise for that call id settles to. -/
def observedResult (resolve : Nat → Except ReqError JSValue) :
    Arrival → Except ReqError JSValue
  | .fromCache v => Except.ok v
  | .joined i => resolve i
  | .started i => resolve i

/-- `ApiClient.clearCache` (submit-form.js lines 377-380) forwards to
`performanceOptimizer.clearCache()`; the `requestQueue` is untouched. -/
def apiClearCache (st : ApiState) : ApiState :=
  { st with cache := clearCache st.cache }

/-- `n` calls with identical method, endpoint and body arriving in
sequence (event-loop order) while none of them has settled. -/
def arrivalsN (cfg : CacheConfig) (now : Nat) (baseURL endpoint method : String)
    (body : JSValue) (cacheEnabled : Bool) : Nat → ApiState × List Arrival
  | 0 => (initApiState, [])
  | n + 1 =>
    let r := arrivalsN cfg now baseURL endpoint method body cacheEnabled n
    let r' := requestArrive cfg r.1 now baseURL endpoint method body cacheEnabled
    (r'.1, r.2 ++ [r'.2])

example :
    (arrivalsN defaultConfig 5 "/api" "/residents" "POST"
      (JSValue.obj (.cons "a" (.num 1) .nil)) false 3).1.transportCalls = 1 := by
  decide

example :
    (arrivalsN defaultConfig 5 "/api" "/residents" "GET" JSValue.undef true 3).2
      = [Arrival.started 0, Arrival.joined 0, Arrival.joined 0] := by decide

/-! ## Helper lemmas -/

/-- After deleting a key, looking it up finds nothing. -/
theorem mapGet_mapDelete (m : Cache) (k : String) :
    mapGet (mapDelete m k) k = none := by
  induction m with
  | nil => rfl
  | cons p rest ih =>
    obtain ⟨k', v⟩ := p
    by_cases hp : k' = k
    · simpa [mapDelete, List.filter, hp] using ih
    · simpa [mapDelete, List.filter, hp, mapGet] using ih

/-- Left cancellation for string concatenation. -/
theorem str_append_cancel_left (a b c : String) (h : a ++ b = a ++ c) : b = c := by
  have hd : a.data ++ b.data = a.data ++ c.data := by
    have := congrArg String.data h
    simpa [String.data_append] using this
  have hbc := List.append_cancel_left hd
  cases b
  cases c
  exact congrArg String.mk hbc

/-- Object fields as an ordinary list of key-value pairs. -/
def JSFields.toList : JSFields → List (String × JSValue)
  | .nil => []
  | .cons k v r => (k, v) :: JSFields.toList r

/-! ## Claims -/

/-- C1: the claim asserts that a successful cacheable GET is stored
under the same derived key a subsequent identical request looks up, so
the second request is served from the cache with no network call.  The
code violates this: `request` looks up `method-url-stringify(body||{})`
while `executeRequest` stores under the bare `url`, so the derived
lookup key never coincides with the store key (first conjunct), and a
repeated identical cacheable GET issues a transport call again even
though the first call's result was written to the cache (the remaining
conjuncts evaluate both runs at a concrete input). -/
theorem c1_store_key_mismatch :
    (∀ baseURL endpoint method (body : JSValue),
        (requestKeyStr baseURL endpoint method body
          == storeKeyStr baseURL endpoint) = false)
    ∧ (runRequestOnce defaultConfig [] 1000 "/api" "/residents" "GET"
        JSValue.undef true 300000 3
        (fun _ => TransportResult.success (JSValue.num 7))).calls = 1
    ∧ mapGet (runRequestOnce defaultConfig [] 1000 "/api" "/residents" "GET"
        JSValue.undef true 300000 3
        (fun _ => TransportResult.success (JSValue.num 7))).cache
        ("fh_" ++ storeKeyStr "/api" "/residents")
        = some { data := JSValue.num 7, timestamp := 1000, ttl := 300000 }
    ∧ (runRequestOnce defaultConfig
        (runRequestOnce defaultConfig [] 1000 "/api" "/residents" "GET"
          JSValue.undef true 300000 3
          (fun _ => TransportResult.success (JSValue.num 7))).cache
        1001 "/api" "/residents" "GET" JSValue.undef true 300000 3
        (fun _ => TransportResult.success (JSValue.num 7))).calls = 1 := by
  refine ⟨?_, by decide, by decide, by decide⟩
  intro baseURL endpoint method body
  rw [beq_eq_false_iff_ne]
  intro h
  have hlen := congrArg String.length h
  simp only [requestKeyStr, storeKeyStr, String.length_append] at hlen
  have hdash : ("-" : String).length = 1 := rfl
  omega

/-- C2 counterexample: two bodies with identical key-value pairs
(a permutation of one another) in different insertion order derive
different cache keys, because `JSON.stringify` serializes object fields
in insertion order. -/
theorem c2_counterexample :
    List.Perm
      (JSFields.toList (.cons "a" (.num 1) (.cons "b" (.num 2) .nil)))
      (JSFields.toList (.cons "b" (.num 2) (.cons "a" (.num 1) .nil)))
    ∧ (requestKeyStr "/api" "/x" "GET"
        (JSValue.obj (.cons "a" (.num 1) (.cons "b" (.num 2) .nil)))
      == requestKeyStr "/api" "/x" "GET"
        (JSValue.obj (.cons "b" (.num 2) (.cons "a" (.num 1) .nil)))) = false := by
  constructor
  · exact List.Perm.swap _ _ _
  · decide

/-- C2 (amended): for a fixed method and endpoint, two requests derive
the same cache/de-duplication key exactly when their bodies (after the
`body || {}` defaulting) have equal `JSON.stringify` serializations —
identical key-value pairs in the same insertion order do, but different
insertion orders generally serialize differently and derive different
keys. -/
theorem c2_amended_key_iff_serialization (baseURL endpoint method : String)
    (b1 b2 : JSValue) :
    requestKeyStr baseURL endpoint method b1
        = requestKeyStr baseURL endpoint method b2
      ↔ stringifyBody b1 = stringifyBody b2 := by
  unfold requestKeyStr
  constructor
  · intro h
    exact str_append_cancel_left _ _ _ h
  · intro h
    rw [h]

/-- C5: when an entry is stored under a key, `getCache` returns its
payload exactly while `now - storedAt ≤ ttl` and the JavaScript `null`
("absent") once past the TTL, and the first lookup past the TTL removes
the entry from the underlying map as a side effect. -/
theorem c5_cache_freshness (cfg : CacheConfig) (m : Cache) (now : Nat)
    (k : String) (item : CacheItem)
    (h : mapGet m (cfg.keyPref ++ k) = some item) :
    (getCache cfg m now k).1
        = (if now - item.timestamp ≤ item.ttl then item.data else JSValue.null)
    ∧ (item.ttl < now - item.timestamp →
        (getCache cfg m now k).1 = JSValue.null
        ∧ mapGet (getCache cfg m now k).2 (cfg.keyPref ++ k) = none) := by
  by_cases he : item.ttl < now - item.timestamp
  · have hif : ¬ (now - item.timestamp ≤ item.ttl) := by omega
    refine ⟨?_, fun _ => ⟨?_, ?_⟩⟩
    · simp [getCache, h, he, hif]
    · simp [getCache, h, he]
    · simp [getCache, h, he, mapGet_mapDelete]
  · have hif : now - item.timestamp ≤ item.ttl := by omega
    refine ⟨?_, fun hc => absurd hc he⟩
    simp [getCache, h, he, hif]

/-- C5 witness: a concrete live lookup and a concrete expired lookup. -/
theorem c5_cache_freshness_witness :
    (getCache defaultConfig
        [("fh_k", { data := JSValue.num 7, timestamp := 1000, ttl := 50 })]
        1050 "k").1
      = (if 1050 - 1000 ≤ 50 then JSValue.num 7 else JSValue.null)
    ∧ ((getCache defaultConfig
          [("fh_k", { data := JSValue.num 7, timestamp := 1000, ttl := 50 })]
          1051 "k").1 = JSValue.null
        ∧ mapGet (getCache defaultConfig
            [("fh_k", { data := JSValue.num 7, timestamp := 1000, ttl := 50 })]
            1051 "k").2 ("fh_" ++ "k") = none) :=
  ⟨(c5_cache_freshness defaultConfig
      [("fh_k", { data := JSValue.num 7, timestamp := 1000, ttl := 50 })]
      1050 "k" { data := JSValue.num 7, timestamp := 1000, ttl := 50 }
      (by decide)).1,
   (c5_cache_freshness defaultConfig
      [("fh_k", { data := JSValue.num 7, timestamp := 1000, ttl := 50 })]
      1051 "k" { data := JSValue.num 7, timestamp := 1000, ttl := 50 }
      (by decide)).2 (by decide)⟩

/-- C8: after `clearCache`, every key reads back as absent (the
JavaScript `null`) and the cache holds no entries, while the pending
request queue — including every in-flight `PendingRequest` — and the
call-id counter are untouched, so a pending call still resolves to
whatever its shared promise settles to. -/
theorem c8_clear_cache_frame (cfg : CacheConfig) (st : ApiState) (now : Nat)
    (k : String) :
    (getCache cfg (apiClearCache st).cache now k).1 = JSValue.null
    ∧ (apiClearCache st).cache = []
    ∧ (apiClearCache st).queue = st.queue
    ∧ (apiClearCache st).nextCallId = st.nextCallId
    ∧ (∀ key, queueLookup (apiClearCache st).queue key = queueLookup st.queue key)
    ∧ (∀ resolve (i : Nat),
        observedResult resolve (Arrival.joined i) = resolve i) := by
  refine ⟨?_, rfl, rfl, rfl, fun _ => rfl, fun _ _ => rfl⟩
  simp [apiClearCache, clearCache, getCache, mapGet]

/-- C9: `getCache` returns the JavaScript `null` both for a missing key
and for a live entry whose stored payload is `null`, so a miss and a
cached `null` are indistinguishable; consequently a cacheable GET whose
live cached payload is falsy fails the `if (cached)` truthiness check
and issues a fresh underlying call. -/
theorem c9_falsy_cache_miss :
    (∀ cfg (m : Cache) now k,
        mapGet m (cfg.keyPref ++ k) = none →
        (getCache cfg m now k).1 = JSValue.null)
    ∧ (∀ cfg (m : Cache) now k item,
        mapGet m (cfg.keyPref ++ k) = some item →
        item.data = JSValue.null →
        now - item.timestamp ≤ item.ttl →
        (getCache cfg m now k).1 = JSValue.null)
    ∧ (∀ cfg (st : ApiState) now baseURL endpoint body item,
        mapGet st.cache
            (cfg.keyPref ++ requestKeyStr baseURL endpoint "GET" body)
          = some item →
        item.data.truthy = false →
        now - item.timestamp ≤ item.ttl →
        queueLookup st.queue (requestKeyStr baseURL endpoint "GET" body) = none →
        (requestArrive cfg st now baseURL endpoint "GET" body true).2
            = Arrival.started st.nextCallId
        ∧ (requestArrive cfg st now baseURL endpoint "GET" body true).1.transportCalls
            = st.transportCalls + 1) := by
  refine ⟨?_, ?_, ?_⟩
  · intro cfg m now k h
    simp [getCache, h]
  · intro cfg m now k item h hnull hlive
    have : ¬ item.ttl < now - item.timestamp := by omega
    simp [getCache, h, this, hnull]
  · intro cfg st now baseURL endpoint body item h hfalsy hlive hq
    have hne : ¬ item.ttl < now - item.timestamp := by omega
    constructor
    · simp [requestArrive, getCache, h, hne, hfalsy, joinOrStart, hq]
    · simp [requestArrive, getCache, h, hne, hfalsy, joinOrStart, hq]

/-- C10: for a fixed method and endpoint, every falsy request body
(absent/`undefined`, `null`, `0`, the empty string, `false`) is replaced
by `{}` in `JSON.stringify(body || {})`, so it derives exactly the key
of the empty-object body and an arriving call behaves identically —
sharing the same cache slot and the same `PendingRequest` bucket. -/
theorem c10_falsy_body_same_key (baseURL endpoint method : String)
    (b : JSValue) (h : b.truthy = false) :
    requestKeyStr baseURL endpoint method b
        = requestKeyStr baseURL endpoint method (JSValue.obj .nil)
    ∧ ∀ cfg (st : ApiState) now ce,
        requestArrive cfg st now baseURL endpoint method b ce
          = requestArrive cfg st now baseURL endpoint method (JSValue.obj .nil) ce := by
  have hk : requestKeyStr baseURL endpoint method b
      = requestKeyStr baseURL endpoint method (JSValue.obj .nil) := by
    simp [requestKeyStr, stringifyBody, jsOr, h]
  exact ⟨hk, fun cfg st now ce => by simp [requestArrive, hk]⟩

/-- C10 witness: each enumerated falsy body shares the empty-object key
at a concrete method and endpoint. -/
theorem c10_falsy_body_same_key_witness :
    requestKeyStr "/api" "/x" "POST" JSValue.undef
        = requestKeyStr "/api" "/x" "POST" (JSValue.obj .nil)
    ∧ requestKeyStr "/api" "/x" "POST" JSValue.null
        = requestKeyStr "/api" "/x" "POST" (JSValue.obj .nil)
    ∧ requestKeyStr "/api" "/x" "POST" (JSValue.num 0)
        = requestKeyStr "/api" "/x" "POST" (JSValue.obj .nil)
    ∧ requestKeyStr "/api" "/x" "POST" (JSValue.str "")
        = requestKeyStr "/api" "/x" "POST" (JSValue.obj .nil)
    ∧ requestKeyStr "/api" "/x" "POST" (JSValue.bool false)
        = requestKeyStr "/api" "/x" "POST" (JSValue.obj .nil) :=
  ⟨(c10_falsy_body_same_key "/api" "/x" "POST" JSValue.undef (by decide)).1,
   (c10_falsy_body_same_key "/api" "/x" "POST" JSValue.null (by decide)).1,
   (c10_falsy_body_same_key "/api" "/x" "POST" (JSValue.num 0) (by decide)).1,
   (c10_falsy_body_same_key "/api" "/x" "POST" (JSValue.str "") (by decide)).1,
   (c10_falsy_body_same_key "/api" "/x" "POST" (JSValue.bool false) (by decide)).1⟩

/-- The client state after the first of a burst of identical calls:
one pending entry under the derived key with call id 0, one underlying
call issued. -/
def dedupState (key : String) : ApiState :=
  { cache := [], queue := [(key, 0)], nextCallId := 1, transportCalls := 1 }

/-- From a fresh client, the first arriving call always registers a new
pending request and issues the underlying call (the cache is empty, so
even a cacheable GET reaches the de-duplication step). -/
theorem requestArrive_init (cfg : CacheConfig) (now : Nat)
    (baseURL endpoint method : String) (body : JSValue) (ce : Bool) :
    requestArrive cfg initApiState now baseURL endpoint method body ce
      = (dedupState (requestKeyStr baseURL endpoint method body),
         Arrival.started 0) := by
  by_cases hm : (method == "GET" && ce) = true
  · simp [requestArrive, hm, getCache, mapGet, initApiState, joinOrStart,
      queueLookup, dedupState, JSValue.truthy]
  · simp [requestArrive, hm, initApiState, joinOrStart, queueLookup, dedupState]

/-- While the first call is still pending, a later identical arrival
joins its bucket and leaves the state unchanged. -/
theorem requestArrive_joined (cfg : CacheConfig) (now : Nat)
    (baseURL endpoint method : String) (body : JSValue) (ce : Bool) :
    requestArrive cfg (dedupState (requestKeyStr baseURL endpoint method body))
        now baseURL endpoint method body ce
      = (dedupState (requestKeyStr baseURL endpoint method body),
         Arrival.joined 0) := by
  by_cases hm : (method == "GET" && ce) = true
  · simp [requestArrive, hm, getCache, mapGet, dedupState, joinOrStart,
      queueLookup, JSValue.truthy]
  · simp [requestArrive, hm, dedupState, joinOrStart, queueLookup]

/-- A burst of `n + 1` identical arrivals: one started call with id 0,
`n` joins of that same bucket. -/
theorem arrivalsN_succ_spec (cfg : CacheConfig) (now : Nat)
    (baseURL endpoint method : String) (body : JSValue) (ce : Bool) (n : Nat) :
    arrivalsN cfg now baseURL endpoint method body ce (n + 1)
      = (dedupState (requestKeyStr baseURL endpoint method body),
         Arrival.started 0 :: List.replicate n (Arrival.joined 0)) := by
  induction n with
  | zero =>
    simp [arrivalsN, requestArrive_init]
  | succ n ih =>
    rw [show n + 1 + 1 = (n + 1) + 1 from rfl]
    rw [arrivalsN, ih]
    simp [requestArrive_joined, List.replicate_succ' n]

/-- C3: `N ≥ 1` concurrent `execute` calls with identical method,
endpoint and body (any method), arriving while the first is still in
flight, issue exactly one underlying transport call; every later caller
joins the first call's pending bucket, so all `N` callers observe
whatever that single shared call resolves or rejects to. -/
theorem c3_dedup_single_call (cfg : CacheConfig) (now : Nat)
    (baseURL endpoint method : String) (body : JSValue) (ce : Bool)
    (N : Nat) (h : 1 ≤ N) :
    (arrivalsN cfg now baseURL endpoint method body ce N).1.transportCalls = 1
    ∧ (arrivalsN cfg now baseURL endpoint method body ce N).2
        = Arrival.started 0 :: List.replicate (N - 1) (Arrival.joined 0)
    ∧ ∀ (resolve : Nat → Except ReqError JSValue),
        ∀ a ∈ (arrivalsN cfg now baseURL endpoint method body ce N).2,
          observedResult resolve a = resolve 0 := by
  obtain ⟨n, rfl⟩ : ∃ n, N = n + 1 := ⟨N - 1, by omega⟩
  rw [arrivalsN_succ_spec]
  refine ⟨rfl, by simp [dedupState], ?_⟩
  intro resolve a ha
  rcases List.mem_cons.mp ha with rfl | hmem
  · rfl
  · rw [List.eq_of_mem_replicate hmem]
    rfl

/-- C3 witness: three concurrent identical POSTs issue one underlying
call and yield the arrival trace started-joined-joined. -/
theorem c3_dedup_single_call_witness :
    (arrivalsN defaultConfig 5 "/api" "/residents" "POST"
        (JSValue.obj (.cons "a" (.num 1) .nil)) false 3).1.transportCalls = 1
    ∧ (arrivalsN defaultConfig 5 "/api" "/residents" "POST"
        (JSValue.obj (.cons "a" (.num 1) .nil)) false 3).2
        = Arrival.started 0 :: List.replicate 2 (Arrival.joined 0) :=
  ⟨(c3_dedup_single_call defaultConfig 5 "/api" "/residents" "POST"
      (JSValue.obj (.cons "a" (.num 1) .nil)) false 3 (by decide)).1,
   (c3_dedup_single_call defaultConfig 5 "/api" "/residents" "POST"
      (JSValue.obj (.cons "a" (.num 1) .nil)) false 3 (by decide)).2.1⟩

/-- Cache contents for the C9 witness: the derived key of a cacheable
GET of `/x` with no body, holding a live `null` payload. -/
def c9Cache : Cache :=
  [("fh_" ++ requestKeyStr "/api" "/x" "GET" JSValue.undef,
    { data := JSValue.null, timestamp := 0, ttl := 1000000 })]

/-- Client state for the C9 witness: that cache, no pending requests. -/
def c9State : ApiState :=
  { cache := c9Cache, queue := [], nextCallId := 0, transportCalls := 0 }

/-- C9 witness: a missing key reads as `null`; a live cached `null`
reads as `null`; a cacheable GET whose live cached payload is `null`
starts a fresh underlying call. -/
theorem c9_falsy_cache_miss_witness :
    (getCache defaultConfig [] 10 "nope").1 = JSValue.null
    ∧ (getCache defaultConfig c9Cache 10
        (requestKeyStr "/api" "/x" "GET" JSValue.undef)).1 = JSValue.null
    ∧ (requestArrive defaultConfig c9State 10 "/api" "/x" "GET"
        JSValue.undef true).2 = Arrival.started 0
    ∧ (requestArrive defaultConfig c9State 10 "/api" "/x" "GET"
        JSValue.undef true).1.transportCalls = 1 :=
  ⟨c9_falsy_cache_miss.1 defaultConfig [] 10 "nope" rfl,
   c9_falsy_cache_miss.2.1 defaultConfig c9Cache 10
     (requestKeyStr "/api" "/x" "GET" JSValue.undef)
     { data := JSValue.null, timestamp := 0, ttl := 1000000 }
     (by decide) rfl (by decide),
   (c9_falsy_cache_miss.2.2 defaultConfig c9State 10 "/api" "/x" JSValue.undef
     { data := JSValue.null, timestamp := 0, ttl := 1000000 }
     (by decide) (by decide) (by decide) rfl).1,
   (c9_falsy_cache_miss.2.2 defaultConfig c9State 10 "/api" "/x" JSValue.undef
     { data := JSValue.null, timestamp := 0, ttl := 1000000 }
     (by decide) (by decide) (by decide) rfl).2⟩

/-- C6: a transport that answers 404 on the first attempt — whatever it
would do on later attempts — is rejected after exactly one underlying
invocation with the original error and no backoff delay, because the
`error.message.includes('HTTP 4')` check breaks the loop; every 4xx
status behaves the same way, while 5xx responses, timeouts (the aborted
fetch) and network failures are retried to the full three attempts. -/
theorem c6_no_retry_on_4xx (rest : Nat → TransportResult) :
    runAttempts
        (fun n => if n = 1 then TransportResult.httpError 404 "Not Found"
                  else rest n) 3
      = (Except.error (ReqError.http 404 "Not Found"), 1, [])
    ∧ ((List.range 100).all (fun k =>
        ((runAttempts (fun _ => TransportResult.httpError (400 + k) "Client Error")
            3).2.1 == 1)) = true)
    ∧ ((List.range 100).all (fun k =>
        ((runAttempts (fun _ => TransportResult.httpError (500 + k) "Server Error")
            3).2.1 == 3)) = true)
    ∧ (runAttempts (fun _ => TransportResult.networkError "The operation was aborted")
        3).2.1 = 3
    ∧ (runAttempts (fun _ => TransportResult.networkError "Failed to fetch")
        3).2.1 = 3 :=
  ⟨rfl, by decide, by decide, by decide, by decide⟩

/-- C7: a transport answering 503 on the first two attempts and
succeeding on the third, with `maxRetries = 3`, yields the successful
payload after exactly 3 underlying invocations; the two inter-attempt
delays are `2^1` and `2^2` seconds (in milliseconds), which are
non-decreasing, and no delay follows the final attempt (the delay list
has exactly two elements for three attempts). -/
theorem c7_retry_backoff (d : JSValue) (rest : Nat → TransportResult) :
    runAttempts
        (fun n => if n = 1 then TransportResult.httpError 503 "Service Unavailable"
                  else if n = 2 then TransportResult.httpError 503 "Service Unavailable"
                  else if n = 3 then TransportResult.success d
                  else rest n) 3
      = (Except.ok d, 3, [2 ^ 1 * 1000, 2 ^ 2 * 1000])
    ∧ 2 ^ 1 * 1000 ≤ 2 ^ 2 * 1000
    ∧ [2 ^ 1 * 1000, 2 ^ 2 * 1000].length = 3 - 1 :=
  ⟨rfl, by norm_num, rfl⟩

/-- Invariant of the eviction scan: the tracked best time only
decreases, ends below every scanned timestamp, and either the
accumulator survives untouched or the result names a scanned entry and
its timestamp. -/
theorem scanOldest_spec (m : Cache) : ∀ (bk : Option String) (bt : Nat),
    (scanOldest m (bk, bt)).2 ≤ bt
    ∧ (∀ p ∈ m, (scanOldest m (bk, bt)).2 ≤ p.2.timestamp)
    ∧ ((scanOldest m (bk, bt)).1 = bk ∧ (scanOldest m (bk, bt)).2 = bt
       ∨ ∃ p ∈ m, (scanOldest m (bk, bt)).1 = some p.1
           ∧ (scanOldest m (bk, bt)).2 = p.2.timestamp) := by
  induction m with
  | nil =>
    intro bk bt
    exact ⟨le_refl _, by simp [scanOldest], Or.inl ⟨rfl, rfl⟩⟩
  | cons q rest ih =>
    intro bk bt
    by_cases hq : q.2.timestamp < bt
    · have hstep : scanOldest (q :: rest) (bk, bt)
          = scanOldest rest (some q.1, q.2.timestamp) := by
        simp [scanOldest, hq]
      obtain ⟨h1, h2, h3⟩ := ih (some q.1) q.2.timestamp
      rw [hstep]
      refine ⟨by omega, ?_, ?_⟩
      · intro p hp
        rcases List.mem_cons.mp hp with rfl | hmem
        · exact h1
        · exact h2 p hmem
      · rcases h3 with ⟨hk, ht⟩ | ⟨p, hp, hk, ht⟩
        · exact Or.inr ⟨q, List.mem_cons_self q rest, hk, ht⟩
        · exact Or.inr ⟨p, List.mem_cons_of_mem q hp, hk, ht⟩
    · have hstep : scanOldest (q :: rest) (bk, bt) = scanOldest rest (bk, bt) := by
        simp [scanOldest, hq]
      obtain ⟨h1, h2, h3⟩ := ih bk bt
      rw [hstep]
      refine ⟨h1, ?_, ?_⟩
      · intro p hp
        rcases List.mem_cons.mp hp with rfl | hmem
        · omega
        · exact h2 p hmem
      · rcases h3 with ⟨hk, ht⟩ | ⟨p, hp, hk, ht⟩
        · exact Or.inl ⟨hk, ht⟩
        · exact Or.inr ⟨p, List.mem_cons_of_mem q hp, hk, ht⟩

/-- When some entry is strictly older than `now`, `evictOldest` deletes
the key of an entry of globally minimal `storedAt`. -/
theorem evictOldest_spec (now : Nat) (m : Cache)
    (h : ∃ p ∈ m, p.2.timestamp < now) :
    ∃ q ∈ m, (∀ r ∈ m, q.2.timestamp ≤ r.2.timestamp)
      ∧ evictOldest now m = mapDelete m q.1 := by
  obtain ⟨p, hp, hlt⟩ := h
  obtain ⟨h1, h2, h3⟩ := scanOldest_spec m none now
  rcases h3 with ⟨hk, ht⟩ | ⟨q, hq, hk, ht⟩
  · exfalso
    have := h2 p hp
    omega
  · refine ⟨q, hq, ?_, ?_⟩
    · intro r hr
      have := h2 r hr
      omega
    · unfold evictOldest
      rw [hk]

/-- Eviction strictly shrinks the cache when a strictly-older entry
exists. -/
theorem evictOldest_length (now : Nat) (m : Cache)
    (h : ∃ p ∈ m, p.2.timestamp < now) :
    (evictOldest now m).length < m.length := by
  obtain ⟨q, hq, _, he⟩ := evictOldest_spec now m h
  rw [he]
  exact List.length_filter_lt_length_iff_exists.mpr ⟨q, hq, by simp⟩

/-- `Map.set` grows the map by at most one entry. -/
theorem mapSet_length (m : Cache) (k : String) (v : CacheItem) :
    (mapSet m k v).length ≤ m.length + 1 := by
  unfold mapSet
  split
  · simp
  · simp

/-- One recorded `setCache` invocation: the `Date.now()` at which it
runs, the key, the payload, and the optional TTL argument. -/
structure SetCall where
  now : Nat
  key : String
  data : JSValue
  ttl : Option Nat

/-- A sequence of `setCache` calls, applied in order. -/
def runSetCalls (cfg : CacheConfig) (m : Cache) : List SetCall → Cache
  | [] => m
  | c :: cs => runSetCalls cfg (setCache cfg m c.now c.key c.data c.ttl) cs

/-- Every entry of `Map.set` is the new pair or an original entry. -/
theorem mem_mapSet (m : Cache) (k : String) (v : CacheItem) :
    ∀ p ∈ mapSet m k v, p = (k, v) ∨ p ∈ m := by
  intro p hp
  unfold mapSet at hp
  split at hp
  · rcases List.mem_map.mp hp with ⟨q, hq, hfq⟩
    by_cases hqk : q.1 = k
    · rw [if_pos hqk] at hfq
      exact Or.inl hfq.symm
    · rw [if_neg hqk] at hfq
      rw [← hfq]
      exact Or.inr hq
  · rcases List.mem_append.mp hp with h | h
    · exact Or.inr h
    · exact Or.inl (List.mem_singleton.mp h)

/-- Eviction only removes entries. -/
theorem mem_evictOldest (now : Nat) (m : Cache) :
    ∀ p ∈ evictOldest now m, p ∈ m := by
  intro p hp
  unfold evictOldest at hp
  split at hp
  · exact (List.mem_filter.mp hp).1
  · exact hp

/-- Every entry of a cache produced by `setCache` either carries the
call's timestamp or was already present. -/
theorem mem_setCache (cfg : CacheConfig) (m : Cache) (now : Nat) (k : String)
    (d : JSValue) (ttl : Option Nat) :
    ∀ p ∈ setCache cfg m now k d ttl, p.2.timestamp = now ∨ p ∈ m := by
  intro p hp
  simp only [setCache] at hp
  rcases mem_mapSet _ _ _ p hp with h | h
  · rw [h]
    exact Or.inl rfl
  · split at h
    · exact Or.inr ((List.mem_filter.mp (mem_evictOldest _ _ p h)).1)
    · exact Or.inr ((List.mem_filter.mp h).1)

/-- A single `setCache` call keeps the size within the capacity,
provided the (cleaned) cache offers an eviction candidate whenever it is
at capacity. -/
theorem setCache_capacity_step (cfg : CacheConfig) (m : Cache) (now : Nat)
    (k : String) (d : JSValue) (ttl : Option Nat)
    (hlen : m.length ≤ cfg.maxSize)
    (hwit : cfg.maxSize ≤ (cleanupCache now m).length →
      ∃ p ∈ cleanupCache now m, p.2.timestamp < now) :
    (setCache cfg m now k d ttl).length ≤ cfg.maxSize := by
  have hc : (cleanupCache now m).length ≤ m.length :=
    List.length_filter_le _ _
  by_cases hcap : cfg.maxSize ≤ (cleanupCache now m).length
  · have hev : (evictOldest now (cleanupCache now m)).length
        < (cleanupCache now m).length :=
      evictOldest_length now (cleanupCache now m) (hwit hcap)
    have hset := mapSet_length (evictOldest now (cleanupCache now m))
      (cfg.keyPref ++ k)
      { data := d, timestamp := now,
        ttl := match ttl with
               | some t => if t = 0 then cfg.ttl else t
               | none => cfg.ttl }
    simp only [setCache, if_pos hcap]
    omega
  · have hset := mapSet_length (cleanupCache now m) (cfg.keyPref ++ k)
      { data := d, timestamp := now,
        ttl := match ttl with
               | some t => if t = 0 then cfg.ttl else t
               | none => cfg.ttl }
    simp only [setCache, if_neg hcap]
    omega

/-- Capacity bound for call sequences: starting from a cache within
capacity whose timestamps all lie strictly before `t`, a sequence of
calls at strictly increasing instants, none before `t`, keeps the size
within a positive capacity throughout. -/
theorem runSetCalls_capacity_aux (cfg : CacheConfig) (hmax : 1 ≤ cfg.maxSize) :
    ∀ (calls : List SetCall) (m : Cache) (t : Nat),
      (∀ p ∈ m, p.2.timestamp < t) →
      (∀ c ∈ calls, t ≤ c.now) →
      List.Pairwise (fun a b => a.now < b.now) calls →
      m.length ≤ cfg.maxSize →
      (runSetCalls cfg m calls).length ≤ cfg.maxSize := by
  intro calls
  induction calls with
  | nil =>
    intro m t _ _ _ hlen
    exact hlen
  | cons c cs ih =>
    intro m t hts hlb hpw hlen
    have hnow : ∀ p ∈ m, p.2.timestamp < c.now := by
      intro p hp
      have h1 := hts p hp
      have h2 := hlb c (List.mem_cons_self c cs)
      omega
    have hstep : (setCache cfg m c.now c.key c.data c.ttl).length ≤ cfg.maxSize := by
      apply setCache_capacity_step cfg m c.now c.key c.data c.ttl hlen
      intro hcap
      have hne : cleanupCache c.now m ≠ [] := by
        intro hnil
        rw [hnil] at hcap
        simp at hcap
        omega
      obtain ⟨p, hp⟩ := List.exists_mem_of_ne_nil _ hne
      exact ⟨p, hp, hnow p ((List.mem_filter.mp hp).1)⟩
    refine ih (setCache cfg m c.now c.key c.data c.ttl) (c.now + 1) ?_ ?_
      (List.pairwise_cons.mp hpw).2 hstep
    · intro p hp
      rcases mem_setCache cfg m c.now c.key c.data c.ttl p hp with h | h
      · omega
      · have := hnow p h
        omega
    · intro c' hc'
      have := (List.pairwise_cons.mp hpw).1 c' hc'
      omega

/-- C4 (amended): the capacity bound holds for every `setCache` call
that, whenever it finds the (expiry-cleaned) cache at or above capacity,
is issued at an instant strictly later than the `storedAt` of at least
one surviving entry; at such a call the evicted entry is one of globally
minimal `storedAt` (the first such in insertion order).  In particular,
after any sequence of `setCache` calls issued at strictly increasing
timestamps the size never exceeds a positive configured maximum.
A call at capacity whose surviving entries all carry the current instant
as their `storedAt` evicts nothing — the scan starts at `Date.now()`
with a strict comparison — and pushes the size past the configured
maximum, so the unconditional bound of the original claim fails
(see the counterexample). -/
theorem c4_amended_capacity (cfg : CacheConfig) (m : Cache) (now : Nat)
    (k : String) (d : JSValue) (ttl : Option Nat) (calls : List SetCall) :
    (m.length ≤ cfg.maxSize →
      (cfg.maxSize ≤ (cleanupCache now m).length →
        ∃ p ∈ cleanupCache now m, p.2.timestamp < now) →
      (setCache cfg m now k d ttl).length ≤ cfg.maxSize)
    ∧ ((∃ p ∈ m, p.2.timestamp < now) →
        ∃ q ∈ m, (∀ r ∈ m, q.2.timestamp ≤ r.2.timestamp)
          ∧ evictOldest now m = mapDelete m q.1)
    ∧ (1 ≤ cfg.maxSize →
        List.Pairwise (fun a b => a.now < b.now) calls →
        (runSetCalls cfg [] calls).length ≤ cfg.maxSize) := by
  refine ⟨setCache_capacity_step cfg m now k d ttl, evictOldest_spec now m, ?_⟩
  intro hmax hpw
  exact runSetCalls_capacity_aux cfg hmax calls [] 0 (by simp) (fun _ _ => Nat.zero_le _)
    hpw (by simp)

/-- Configuration for the C4 witness: capacity 2. -/
def cfgW : CacheConfig := { maxSize := 2, ttl := 1000000, keyPref := "fh_" }

/-- A two-entry cache at capacity for the C4 witness, with distinct
`storedAt` values strictly before the insertion instant. -/
def c4WCache : Cache :=
  [("fh_a", { data := JSValue.num 1, timestamp := 0, ttl := 1000000 }),
   ("fh_b", { data := JSValue.num 2, timestamp := 5, ttl := 1000000 })]

/-- Three strictly-increasing-time calls for the C4 witness. -/
def c4WCalls : List SetCall :=
  [{ now := 10, key := "a", data := JSValue.num 1, ttl := none },
   { now := 20, key := "b", data := JSValue.num 2, ttl := none },
   { now := 30, key := "c", data := JSValue.num 3, ttl := none }]

/-- C4 witness: inserting into the full two-entry cache keeps the size
within the capacity, the eviction scan picks the oldest entry, and a
strictly-increasing-time call sequence stays within the capacity. -/
theorem c4_amended_capacity_witness :
    (setCache cfgW c4WCache 100 "c" (JSValue.num 3) none).length ≤ 2
    ∧ (∃ q ∈ c4WCache, (∀ r ∈ c4WCache, q.2.timestamp ≤ r.2.timestamp)
        ∧ evictOldest 100 c4WCache = mapDelete c4WCache q.1)
    ∧ (runSetCalls cfgW [] c4WCalls).length ≤ 2 :=
  ⟨(c4_amended_capacity cfgW c4WCache 100 "c" (JSValue.num 3) none c4WCalls).1
      (by decide) (fun _ => by decide),
   (c4_amended_capacity cfgW c4WCache 100 "c" (JSValue.num 3) none c4WCalls).2.1
      (by decide),
   (c4_amended_capacity cfgW c4WCache 100 "c" (JSValue.num 3) none c4WCalls).2.2
      (by decide) (by decide)⟩

/-- 101 distinct single-character keys. -/
def sameInstantKeys : List String :=
  (List.range 101).map (fun i => String.singleton (Char.ofNat (65 + i)))

/-- 101 `setCache` calls on the default configuration (capacity 100),
all issued at the same instant — as happens when a burst of calls lands
within one millisecond, since `Date.now()` has millisecond resolution. -/
def c4Run : Cache :=
  sameInstantKeys.foldl
    (fun m k => setCache defaultConfig m 1000 k (JSValue.num 1) none) []

set_option maxRecDepth 100000 in
/-- C4 counterexample: after 101 same-instant `setCache` calls the cache
holds 101 entries, exceeding the configured maximum of 100 — at the
101st call the scan finds no entry with `timestamp < Date.now()` and
evicts nothing, refuting the claim's unconditional capacity bound. -/
theorem c4_counterexample :
    c4Run.length = 101 ∧ defaultConfig.maxSize = 100 := by
  constructor
  · decide
  · rfl
